import Mathlib

/-!
Shallow embedding of the decision-normalization and policy-threshold engine
of the Signal backend (TypeScript sources under `src/`), together with
theorems checking the natural-language specification against the code.

Numeric values (JavaScript `number`) are modelled as exact rationals for
finite values; where non-finite values (NaN, ±Infinity) matter, the
explicit type `JSNum` is used with JavaScript semantics for `Math.floor`,
`Math.max`, `Math.min` and `Number.isFinite`.
-/

namespace Signal

/-- Embeds `InterventionPolicy` from src/utils/openaiClient.ts, src/utils/opikLogger.ts,
src/api/opik-log.ts: `'focused' | 'aggressive'`. -/
inductive InterventionPolicy where
  | focused
  | aggressive
deriving DecidableEq, Repr

/-- Embeds `Decision` / the `decision` union type: `'triggered' | 'ignored'`. -/
inductive Decision where
  | triggered
  | ignored
deriving DecidableEq, Repr

/-- Embeds `DecisionConfidence`: `'high' | 'borderline' | 'low'`. -/
inductive DecisionConfidence where
  | high
  | borderline
  | low
deriving DecidableEq, Repr

/-- Embeds `DecisionReasonCode`: the five enumerated reason codes. -/
inductive DecisionReasonCode where
  | low_scores
  | high_scores
  | policy_blocked
  | retrieval_bridge_used
  | insufficient_concepts
deriving DecidableEq, Repr

/-- The per-policy threshold record type of `POLICY_THRESHOLDS`
(src/utils/opikLogger.ts lines 30-41, src/api/opik-log.ts lines 57-68).
Score thresholds are rationals; concept-count thresholds are integers. -/
structure PolicyThresholds where
  trigger : ℚ
  highRelevance : ℚ
  highLearning : ℚ
  highConceptCount : ℤ
  lowRelevance : ℚ
  lowLearning : ℚ
  lowConceptCount : ℤ
  minConceptCount : ℤ
deriving DecidableEq, Repr

/-- Embeds `POLICY_THRESHOLDS` constant, defined identically in
src/utils/opikLogger.ts (lines 42-63) and src/api/opik-log.ts (lines 69-90).
0.75 = 3/4, 0.85 = 17/20, 0.65 = 13/20, 0.6 = 3/5, 0.55 = 11/20. -/
def POLICY_THRESHOLDS : InterventionPolicy → PolicyThresholds
  | .focused =>
    { trigger := 3/4
      highRelevance := 17/20
      highLearning := 17/20
      highConceptCount := 6
      lowRelevance := 13/20
      lowLearning := 13/20
      lowConceptCount := 4
      minConceptCount := 4 }
  | .aggressive =>
    { trigger := 3/5
      highRelevance := 3/4
      highLearning := 3/4
      highConceptCount := 4
      lowRelevance := 11/20
      lowLearning := 11/20
      lowConceptCount := 2
      minConceptCount := 2 }

/-- Embeds `TRIGGER_THRESHOLDS` constant, defined identically in
src/utils/openaiClient.ts (lines 270-273) and src/utils/opikLogger.ts
(lines 25-28): focused → 0.75, aggressive → 0.6. -/
def TRIGGER_THRESHOLDS : InterventionPolicy → ℚ
  | .focused => 3/4
  | .aggressive => 3/5

/-- Embeds `normalizeDecisionConfidence` from src/utils/opikLogger.ts lines 150-172
(identical copy in src/api/opik-log.ts lines 141-163). Inputs are the
already-normalized scores and concept count. -/
def normalizeDecisionConfidence (relevanceScore learningValueScore : ℚ)
    (conceptCount : ℤ) (interventionPolicy : InterventionPolicy) : DecisionConfidence :=
  let policy := POLICY_THRESHOLDS interventionPolicy
  if relevanceScore ≥ policy.highRelevance ∧
      learningValueScore ≥ policy.highLearning ∧
      conceptCount ≥ policy.highConceptCount then
    .high
  else if relevanceScore < policy.lowRelevance ∨
      learningValueScore < policy.lowLearning ∨
      conceptCount < policy.lowConceptCount then
    .low
  else
    .borderline

/-- Embeds `normalizeDecisionReasonCode` from src/utils/opikLogger.ts lines 174-209
(identical copy in src/api/opik-log.ts lines 178-213). -/
def normalizeDecisionReasonCode (systemDecision : Decision)
    (relevanceScore learningValueScore : ℚ) (conceptCount : ℤ)
    (interventionPolicy : InterventionPolicy) (retrievalUsed : Bool) : DecisionReasonCode :=
  let policy := POLICY_THRESHOLDS interventionPolicy
  if retrievalUsed = true ∧ systemDecision = .triggered then
    .retrieval_bridge_used
  else if conceptCount < policy.minConceptCount then
    .insufficient_concepts
  else if systemDecision = .triggered then
    .high_scores
  else if relevanceScore < policy.trigger ∨ learningValueScore < policy.trigger then
    .low_scores
  else
    .policy_blocked

/-- Embeds `normalizeSystemDecision` from src/api/opik-log.ts lines 165-176:
an explicit decision wins when present; otherwise the decision is recomputed
from the scores against the policy's trigger threshold. -/
def normalizeSystemDecision (explicitDecision : Option Decision)
    (relevanceScore learningValueScore : ℚ)
    (interventionPolicy : InterventionPolicy) : Decision :=
  match explicitDecision with
  | some d => d
  | none =>
    let threshold := (POLICY_THRESHOLDS interventionPolicy).trigger
    if relevanceScore ≥ threshold ∧ learningValueScore ≥ threshold then
      .triggered
    else
      .ignored

/-- A JavaScript `number` as consumed by the normalization helpers:
either a finite value (modelled exactly as a rational) or one of the
non-finite values `NaN`, `+Infinity`, `-Infinity`. -/
inductive JSNum where
  | nan
  | posInf
  | negInf
  | finite (q : ℚ)
deriving DecidableEq, Repr

namespace JSNum

/-- JavaScript `Number.isFinite`. -/
def isFinite : JSNum → Bool
  | .finite _ => true
  | _ => false

/-- JavaScript `Math.floor`: NaN and the infinities map to themselves,
finite values floor to an integer. -/
def jsFloor : JSNum → JSNum
  | .nan => .nan
  | .posInf => .posInf
  | .negInf => .negInf
  | .finite q => .finite ((⌊q⌋ : ℤ) : ℚ)

/-- JavaScript `Math.max` on two arguments: NaN is absorbing, otherwise
the larger value in the order -Infinity < finite < +Infinity. -/
def jsMax : JSNum → JSNum → JSNum
  | .nan, _ => .nan
  | _, .nan => .nan
  | .posInf, _ => .posInf
  | _, .posInf => .posInf
  | .negInf, y => y
  | x, .negInf => x
  | .finite a, .finite b => .finite (max a b)

end JSNum

/-- Embeds `clamp01` from src/utils/opikLogger.ts lines 145-148 (identical copies
in src/api/opik-log.ts lines 136-139 and src/utils/openaiClient.ts lines
559-562): non-finite input returns 0, otherwise `Math.max(0, Math.min(1, value))`.
The result is always finite, so it is returned as a rational. -/
def clamp01 : JSNum → ℚ
  | .finite q => max 0 (min 1 q)
  | _ => 0

/-- The concept-count normalization of `logToOpik`
(src/utils/opikLogger.ts line 241): `Math.max(0, Math.floor(conceptCount))`.
Unlike `clamp01` there is no finiteness check, so the result is a `JSNum`. -/
def normalizedConceptCount (conceptCount : JSNum) : JSNum :=
  JSNum.jsMax (.finite 0) (JSNum.jsFloor conceptCount)

/-- Embeds `LearningMode` from src/utils/openaiClient.ts line 266. -/
inductive LearningMode where
  | interview_prep
  | assessment_exam_prep
  | general_learning
deriving DecidableEq, Repr

/-- The `ordering` field of a `QuestionPlan`
(src/utils/openaiClient.ts line 283): `'open_first' | 'balanced' | 'mcq_first'`. -/
inductive QuestionOrdering where
  | open_first
  | balanced
  | mcq_first
deriving DecidableEq, Repr

/-- Embeds `QuestionPlan` from src/utils/openaiClient.ts lines 275-284 (the prompt
hint strings are carried verbatim but play no role in the claims). -/
structure QuestionPlan where
  mode : LearningMode
  modeLabel : String
  openTarget : ℕ
  mcqTarget : ℕ
  difficultyHint : String
  styleHint : String
  modeRules : String
  ordering : QuestionOrdering
deriving Repr

/-- Embeds `questionPlanForMode` from src/utils/openaiClient.ts lines 314-350. -/
def questionPlanForMode : LearningMode → QuestionPlan
  | .interview_prep =>
    { mode := .interview_prep
      modeLabel := "Interview Prep"
      openTarget := 3
      mcqTarget := 1
      difficultyHint := "real-world and explanation-heavy"
      styleHint := "spoken reasoning, clarity, and confidence under pressure"
      modeRules := "Prefer prompts that start with 'Explain', 'Walk me through', or 'Why would you choose'."
      ordering := .open_first }
  | .assessment_exam_prep =>
    { mode := .assessment_exam_prep
      modeLabel := "Assessment / Exam Prep"
      openTarget := 1
      mcqTarget := 3
      difficultyHint := "exam-style and accuracy-focused"
      styleHint := "clear right/wrong phrasing with terminology checks"
      modeRules := "Prefer objective prompts like 'Which of these is true?' and pattern/definition checks."
      ordering := .mcq_first }
  | .general_learning =>
    { mode := .general_learning
      modeLabel := "General Learning"
      openTarget := 2
      mcqTarget := 2
      difficultyHint := "light-to-moderate"
      styleHint := "balanced and supportive with lower pressure"
      modeRules := "Keep a balanced mix and avoid overly high-pressure framing."
      ordering := .balanced }

/-- Embeds `NormalizedQuestion` from src/utils/openaiClient.ts lines 598-600: an
open question or an MCQ with options and a correct index. -/
inductive NormalizedQuestion where
  | open (question : String)
  | mcq (question : String) (options : List String) (correct_index : ℤ)
deriving DecidableEq, Repr

namespace NormalizedQuestion

/-- The `q.type === "open"` test. -/
def isOpen : NormalizedQuestion → Bool
  | .open _ => true
  | .mcq _ _ _ => false

/-- The `q.type === "mcq"` test. -/
def isMcq : NormalizedQuestion → Bool
  | .open _ => false
  | .mcq _ _ _ => true

end NormalizedQuestion

/-- Embeds `conceptAt` from src/utils/openaiClient.ts lines 756-759. -/
def conceptAt (concepts : List String) (index : ℕ) : String :=
  if h : concepts.length = 0 then "the main concept from this content"
  else concepts.get ⟨index % concepts.length, Nat.mod_lt _ (Nat.pos_of_ne_zero h)⟩

/-- Embeds `buildFallbackOpenQuestions` from src/utils/openaiClient.ts lines 684-711:
`needed` deterministic open questions built from the concept list with
mode-specific phrasing. -/
def buildFallbackOpenQuestions (concepts : List String) (needed : ℕ)
    (mode : LearningMode) : List NormalizedQuestion :=
  (List.range needed).map fun i =>
    let concept := conceptAt concepts i
    let question :=
      match mode with
      | .assessment_exam_prep =>
        s!"Define {concept} precisely, then apply it to a short test-style example."
      | .interview_prep =>
        if i % 2 = 0 then
          s!"Explain {concept} in your own words and why it matters in practice."
        else
          s!"Walk me through when you would choose {concept} over an alternative."
      | .general_learning =>
        s!"In your own words, what is {concept} and where would you use it?"
    .open question

/-- Embeds `buildFallbackMcqQuestions` from src/utils/openaiClient.ts lines 713-754:
`needed` deterministic MCQs; the synthesized correct answer is always at
index 0 with three generic distractors. -/
def buildFallbackMcqQuestions (concepts : List String) (needed : ℕ)
    (mode : LearningMode) : List NormalizedQuestion :=
  (List.range needed).map fun i =>
    let concept := conceptAt concepts i
    let question :=
      match mode with
      | .assessment_exam_prep => s!"Which of these is true about {concept} in a test scenario?"
      | .interview_prep => s!"Which explanation of {concept} would sound strongest in an interview?"
      | .general_learning => s!"Which option best captures the main idea of {concept}?"
    let correct :=
      match mode with
      | .assessment_exam_prep => s!"A precise definition and correct use of {concept}"
      | .interview_prep => "The option that is clear, accurate, and grounded in real use"
      | .general_learning => s!"The option that explains {concept} clearly in context"
    let options :=
      [ correct,
        s!"A common misconception about {concept}",
        "A related but different concept from the same topic",
        s!"An unrelated claim that does not explain {concept}" ]
    .mcq question options 0

/-- The `balanced` branch of `orderQuestions`
(src/utils/openaiClient.ts lines 675-681): the loop pushes `open[i]` then
`mcq[i]` for each index, i.e. a one-for-one interleave starting with the
open list, with the tail of the longer list appended. -/
def interleave : List NormalizedQuestion → List NormalizedQuestion → List NormalizedQuestion
  | [], ys => ys
  | x :: xs, ys => x :: interleave ys xs
termination_by xs ys => xs.length + ys.length
decreasing_by simp; omega

/-- Embeds `orderQuestions` from src/utils/openaiClient.ts lines 663-682. -/
def orderQuestions (openQuestions mcqQuestions : List NormalizedQuestion) :
    QuestionOrdering → List NormalizedQuestion
  | .open_first => openQuestions ++ mcqQuestions
  | .mcq_first => mcqQuestions ++ openQuestions
  | .balanced => interleave openQuestions mcqQuestions

/-- The `openQuestions` local of `enforceQuestionPlan`
(src/utils/openaiClient.ts lines 643-651): up to `openTarget` open
candidates in their original relative order, backfilled with deterministic
fallback open questions when the pool is short. -/
def plannedOpenQuestions (candidates : List NormalizedQuestion)
    (concepts : List String) (plan : QuestionPlan) : List NormalizedQuestion :=
  let openBase := (candidates.filter (·.isOpen)).take plan.openTarget
  if openBase.length < plan.openTarget then
    openBase ++ buildFallbackOpenQuestions concepts (plan.openTarget - openBase.length) plan.mode
  else openBase

/-- The `mcqQuestions` local of `enforceQuestionPlan`
(src/utils/openaiClient.ts lines 644-658): up to `mcqTarget` MCQ
candidates in their original relative order, backfilled with deterministic
fallback MCQs when the pool is short. -/
def plannedMcqQuestions (candidates : List NormalizedQuestion)
    (concepts : List String) (plan : QuestionPlan) : List NormalizedQuestion :=
  let mcqBase := (candidates.filter (·.isMcq)).take plan.mcqTarget
  if mcqBase.length < plan.mcqTarget then
    mcqBase ++ buildFallbackMcqQuestions concepts (plan.mcqTarget - mcqBase.length) plan.mode
  else mcqBase

/-- Embeds `enforceQuestionPlan` from src/utils/openaiClient.ts lines 638-661:
take up to `openTarget`/`mcqTarget` candidates of each kind, backfill a
short pool with deterministic fallbacks, then order per the plan. -/
def enforceQuestionPlan (candidates : List NormalizedQuestion)
    (concepts : List String) (plan : QuestionPlan) : List NormalizedQuestion :=
  orderQuestions (plannedOpenQuestions candidates concepts plan)
    (plannedMcqQuestions candidates concepts plan) plan.ordering

/-- The untrusted model output as far as the core reads it
(src/utils/openaiClient.ts lines 450-467): raw scores (arbitrary numbers),
an optional model-suggested decision — present in some model responses but
never read by `analyzeContent` — plus the already-sanitized concept list
(`normalizeConcepts` output) and the already-validated question candidates
(`normalizeQuestions` output). -/
structure ParsedModelOutput where
  relevance_score : JSNum
  learning_value_score : JSNum
  suggested_decision : Option Decision
  concepts : List String
  recall_questions : List NormalizedQuestion

/-- The scores/decision/questions slice of `AnalysisResult`
(src/utils/openaiClient.ts lines 352-361). -/
structure AnalysisCore where
  concepts : List String
  relevance_score : ℚ
  learning_value_score : ℚ
  decision : Decision
  recall_questions : List NormalizedQuestion

/-- The decision/question core of `analyzeContent`
(src/utils/openaiClient.ts lines 372-482): clamp the raw scores, recompute
the decision from the policy's trigger threshold (the server is the source
of truth — `parsed.suggested_decision` is never consulted), and when
triggered enforce the question plan over at most 8 validated candidates. -/
def analyzeContentCore (interventionPolicy : InterventionPolicy)
    (mode : LearningMode) (parsed : ParsedModelOutput) : AnalysisCore :=
  let questionPlan := questionPlanForMode mode
  let triggerThreshold := TRIGGER_THRESHOLDS interventionPolicy
  let relevance_score := clamp01 parsed.relevance_score
  let learning_value_score := clamp01 parsed.learning_value_score
  let decision : Decision :=
    if relevance_score ≥ triggerThreshold ∧ learning_value_score ≥ triggerThreshold then
      .triggered
    else
      .ignored
  let recall_questions :=
    if decision = .triggered then
      enforceQuestionPlan (parsed.recall_questions.take 8) parsed.concepts questionPlan
    else
      []
  { concepts := parsed.concepts
    relevance_score := relevance_score
    learning_value_score := learning_value_score
    decision := decision
    recall_questions := recall_questions }

/-- Embeds `applyBridgeQuestion` from the analyze endpoint
(src/unnamed/part_000 lines 595-613): replace the first open question with
the bridge question; if there is none but the list is non-empty, replace
the first element; for an empty list return just the bridge question.
(TypeScript `findIndex` returning `-1` is modelled as `findIdx? = none`.) -/
def applyBridgeQuestion (questions : List NormalizedQuestion)
    (bridge : NormalizedQuestion) : List NormalizedQuestion :=
  match questions.findIdx? (·.isOpen) with
  | some openIndex => questions.set openIndex bridge
  | none =>
    match questions with
    | [] => [bridge]
    | _ :: _ => questions.set 0 bridge

/-- The decision → confidence → reason pipeline as composed by the live
system: `analyzeContent` computes the decision from the normalized scores
(src/utils/openaiClient.ts lines 455-459) and `logToOpik` derives the
confidence and reason code from the same normalized values
(src/utils/opikLogger.ts lines 251-264). -/
def decisionPipeline (relevanceScore learningValueScore : ℚ) (conceptCount : ℤ)
    (interventionPolicy : InterventionPolicy) (retrievalUsed : Bool) :
    Decision × DecisionConfidence × DecisionReasonCode :=
  let triggerThreshold := TRIGGER_THRESHOLDS interventionPolicy
  let decision : Decision :=
    if relevanceScore ≥ triggerThreshold ∧ learningValueScore ≥ triggerThreshold then
      .triggered
    else
      .ignored
  ( decision,
    normalizeDecisionConfidence relevanceScore learningValueScore conceptCount interventionPolicy,
    normalizeDecisionReasonCode decision relevanceScore learningValueScore conceptCount
      interventionPolicy retrievalUsed )

/-! ## Theorems checking the specification claims -/

/-- C1: for every policy, learning mode and parsed model output, the primary
analysis flow (`analyzeContent`) decides `triggered` exactly when both
normalized scores are at least the policy's trigger threshold (0.75 for
focused, 0.6 for aggressive) and `ignored` otherwise, regardless of any
decision suggested by the upstream model. -/
theorem C1_primary_decision_recomputed (policy : InterventionPolicy)
    (mode : LearningMode) (parsed : ParsedModelOutput) :
    ((analyzeContentCore policy mode parsed).decision = .triggered ↔
      clamp01 parsed.relevance_score ≥ TRIGGER_THRESHOLDS policy ∧
      clamp01 parsed.learning_value_score ≥ TRIGGER_THRESHOLDS policy) ∧
    ((analyzeContentCore policy mode parsed).decision = .ignored ↔
      ¬(clamp01 parsed.relevance_score ≥ TRIGGER_THRESHOLDS policy ∧
        clamp01 parsed.learning_value_score ≥ TRIGGER_THRESHOLDS policy)) ∧
    (∀ s : Option Decision,
      (analyzeContentCore policy mode { parsed with suggested_decision := s }).decision =
        (analyzeContentCore policy mode parsed).decision) ∧
    TRIGGER_THRESHOLDS .focused = 3/4 ∧ TRIGGER_THRESHOLDS .aggressive = 3/5 := by
  refine ⟨?_, ?_, fun s => rfl, by norm_num [TRIGGER_THRESHOLDS], by norm_num [TRIGGER_THRESHOLDS]⟩ <;>
  · simp only [analyzeContentCore]
    split_ifs with h <;> simp_all

/-- C2: `normalizeDecisionReasonCode` applies its five rules in the fixed
order retrieval_bridge_used, insufficient_concepts, high_scores,
low_scores, policy_blocked with the first match winning; in particular,
whenever `retrievalUsed` is true and the decision is `triggered` the reason
is `retrieval_bridge_used` for every score/concept-count combination,
including concept counts below the policy's `minConceptCount`. -/
theorem C2_reason_code_precedence (d : Decision) (rel lrn : ℚ) (cc : ℤ)
    (p : InterventionPolicy) (u : Bool) :
    (∀ (rel₂ lrn₂ : ℚ) (cc₂ : ℤ),
      normalizeDecisionReasonCode .triggered rel₂ lrn₂ cc₂ p true = .retrieval_bridge_used) ∧
    (normalizeDecisionReasonCode d rel lrn cc p u = .retrieval_bridge_used ↔
      u = true ∧ d = .triggered) ∧
    (normalizeDecisionReasonCode d rel lrn cc p u = .insufficient_concepts ↔
      ¬(u = true ∧ d = .triggered) ∧ cc < (POLICY_THRESHOLDS p).minConceptCount) ∧
    (normalizeDecisionReasonCode d rel lrn cc p u = .high_scores ↔
      ¬(u = true ∧ d = .triggered) ∧ ¬(cc < (POLICY_THRESHOLDS p).minConceptCount) ∧
      d = .triggered) ∧
    (normalizeDecisionReasonCode d rel lrn cc p u = .low_scores ↔
      ¬(u = true ∧ d = .triggered) ∧ ¬(cc < (POLICY_THRESHOLDS p).minConceptCount) ∧
      ¬(d = .triggered) ∧
      (rel < (POLICY_THRESHOLDS p).trigger ∨ lrn < (POLICY_THRESHOLDS p).trigger)) ∧
    (normalizeDecisionReasonCode d rel lrn cc p u = .policy_blocked ↔
      ¬(u = true ∧ d = .triggered) ∧ ¬(cc < (POLICY_THRESHOLDS p).minConceptCount) ∧
      ¬(d = .triggered) ∧
      ¬(rel < (POLICY_THRESHOLDS p).trigger ∨ lrn < (POLICY_THRESHOLDS p).trigger)) := by
  refine ⟨fun rel₂ lrn₂ cc₂ => by simp [normalizeDecisionReasonCode], ?_, ?_, ?_, ?_, ?_⟩ <;>
  · simp only [normalizeDecisionReasonCode]
    split_ifs <;> simp_all

/-- C3: the confidence classifier returns `high` iff all three high-band
conditions hold; otherwise `low` iff any low-band condition holds;
otherwise `borderline` — evaluated in that order, first match winning. -/
theorem C3_confidence_classifier (rel lrn : ℚ) (cc : ℤ) (p : InterventionPolicy) :
    (normalizeDecisionConfidence rel lrn cc p = .high ↔
      rel ≥ (POLICY_THRESHOLDS p).highRelevance ∧
      lrn ≥ (POLICY_THRESHOLDS p).highLearning ∧
      cc ≥ (POLICY_THRESHOLDS p).highConceptCount) ∧
    (normalizeDecisionConfidence rel lrn cc p = .low ↔
      ¬(rel ≥ (POLICY_THRESHOLDS p).highRelevance ∧
        lrn ≥ (POLICY_THRESHOLDS p).highLearning ∧
        cc ≥ (POLICY_THRESHOLDS p).highConceptCount) ∧
      (rel < (POLICY_THRESHOLDS p).lowRelevance ∨
        lrn < (POLICY_THRESHOLDS p).lowLearning ∨
        cc < (POLICY_THRESHOLDS p).lowConceptCount)) ∧
    (normalizeDecisionConfidence rel lrn cc p = .borderline ↔
      ¬(rel ≥ (POLICY_THRESHOLDS p).highRelevance ∧
        lrn ≥ (POLICY_THRESHOLDS p).highLearning ∧
        cc ≥ (POLICY_THRESHOLDS p).highConceptCount) ∧
      ¬(rel < (POLICY_THRESHOLDS p).lowRelevance ∨
        lrn < (POLICY_THRESHOLDS p).lowLearning ∨
        cc < (POLICY_THRESHOLDS p).lowConceptCount)) := by
  refine ⟨?_, ?_, ?_⟩ <;>
  · simp only [normalizeDecisionConfidence]
    split_ifs <;> simp_all

/-- C6 counterexample: on policy=focused, relevance=0.8, learning=0.75,
conceptCount=7, retrievalUsed=false, the claimed output
(triggered, high, high_scores) is NOT what the engine produces: relevance
0.8 is below the focused highRelevance band 0.85, so confidence is
borderline. -/
theorem C6_counterexample :
    ¬(decisionPipeline (4/5) (3/4) 7 .focused false =
        (.triggered, .high, .high_scores)) := by
  norm_num [decisionPipeline, normalizeDecisionConfidence, normalizeDecisionReasonCode,
    POLICY_THRESHOLDS, TRIGGER_THRESHOLDS]
  decide

/-- C6 amended: on policy=focused, relevance=0.8, learning=0.75,
conceptCount=7, retrievalUsed=false, the engine produces
decision=triggered, confidence=borderline, reason=high_scores. -/
theorem C6_amended_scenario1 :
    decisionPipeline (4/5) (3/4) 7 .focused false =
      (.triggered, .borderline, .high_scores) := by
  norm_num [decisionPipeline, normalizeDecisionConfidence, normalizeDecisionReasonCode,
    POLICY_THRESHOLDS, TRIGGER_THRESHOLDS]

/-- C7 counterexample: on policy=focused, relevance=0.6, learning=0.6,
conceptCount=3, retrievalUsed=false, the claimed output
(ignored, low, low_scores) is NOT what the engine produces: conceptCount
3 is below the focused minConceptCount 4, so the insufficient_concepts
rule fires before low_scores. -/
theorem C7_counterexample :
    ¬(decisionPipeline (3/5) (3/5) 3 .focused false =
        (.ignored, .low, .low_scores)) := by
  norm_num [decisionPipeline, normalizeDecisionConfidence, normalizeDecisionReasonCode,
    POLICY_THRESHOLDS, TRIGGER_THRESHOLDS]
  decide

/-- C7 amended: on policy=focused, relevance=0.6, learning=0.6,
conceptCount=3, retrievalUsed=false, the engine produces
decision=ignored, confidence=low, reason=insufficient_concepts. -/
theorem C7_amended_scenario2 :
    decisionPipeline (3/5) (3/5) 3 .focused false =
      (.ignored, .low, .insufficient_concepts) := by
  norm_num [decisionPipeline, normalizeDecisionConfidence, normalizeDecisionReasonCode,
    POLICY_THRESHOLDS, TRIGGER_THRESHOLDS]

/-- C8: in the legacy telemetry-relay path (`normalizeSystemDecision`), a
supplied explicit decision always wins over the scores; only when it is
absent is the decision recomputed by comparing both scores to the policy's
trigger threshold. -/
theorem C8_explicit_decision_wins (d : Decision) (rel lrn : ℚ)
    (p : InterventionPolicy) :
    normalizeSystemDecision (some d) rel lrn p = d ∧
    (normalizeSystemDecision none rel lrn p = .triggered ↔
      rel ≥ (POLICY_THRESHOLDS p).trigger ∧ lrn ≥ (POLICY_THRESHOLDS p).trigger) ∧
    (normalizeSystemDecision none rel lrn p = .ignored ↔
      ¬(rel ≥ (POLICY_THRESHOLDS p).trigger ∧ lrn ≥ (POLICY_THRESHOLDS p).trigger)) := by
  refine ⟨rfl, ?_, ?_⟩ <;>
  · simp only [normalizeSystemDecision]
    split_ifs <;> simp_all

/-- C9: both policy threshold sets satisfy
lowRelevance ≤ trigger ≤ highRelevance, lowLearning ≤ trigger ≤ highLearning
and minConceptCount ≤ lowConceptCount ≤ highConceptCount; the table also
agrees with the separate `TRIGGER_THRESHOLDS` constant. (The table is a
top-level constant; every operation in the embedding — as in the source —
only reads it.) -/
theorem C9_policy_table_invariants (p : InterventionPolicy) :
    (POLICY_THRESHOLDS p).lowRelevance ≤ (POLICY_THRESHOLDS p).trigger ∧
    (POLICY_THRESHOLDS p).trigger ≤ (POLICY_THRESHOLDS p).highRelevance ∧
    (POLICY_THRESHOLDS p).lowLearning ≤ (POLICY_THRESHOLDS p).trigger ∧
    (POLICY_THRESHOLDS p).trigger ≤ (POLICY_THRESHOLDS p).highLearning ∧
    (POLICY_THRESHOLDS p).minConceptCount ≤ (POLICY_THRESHOLDS p).lowConceptCount ∧
    (POLICY_THRESHOLDS p).lowConceptCount ≤ (POLICY_THRESHOLDS p).highConceptCount ∧
    (POLICY_THRESHOLDS p).trigger = TRIGGER_THRESHOLDS p := by
  cases p <;> norm_num [POLICY_THRESHOLDS, TRIGGER_THRESHOLDS]

/-- C4 counterexample: the claim that the normalized concept count is a
nonnegative integer for EVERY numeric input fails at `NaN`:
`Math.max(0, Math.floor(NaN))` is `NaN` (the concept-count path of
`logToOpik` has no finiteness check). -/
theorem C4_counterexample :
    ¬ ∃ n : ℤ, 0 ≤ n ∧ normalizedConceptCount JSNum.nan = JSNum.finite (n : ℚ) := by
  rintro ⟨n, -, h⟩
  simp [normalizedConceptCount, JSNum.jsMax, JSNum.jsFloor] at h

/-- C4 amended: score clamping is total — for every numeric input the
normalized score lies in [0,1], non-finite inputs become 0, values below 0
become 0 and values above 1 become 1; the normalized concept count is a
nonnegative integer for every FINITE numeric input (a NaN or +Infinity
concept count propagates, since that path lacks the finiteness check).
No branch can raise an error. -/
theorem C4_amended_normalization_totality (x : JSNum) (q : ℚ) :
    0 ≤ clamp01 x ∧ clamp01 x ≤ 1 ∧
    (x.isFinite = false → clamp01 x = 0) ∧
    (∀ r : ℚ, x = .finite r → r < 0 → clamp01 x = 0) ∧
    (∀ r : ℚ, x = .finite r → 1 < r → clamp01 x = 1) ∧
    (∃ n : ℤ, 0 ≤ n ∧ normalizedConceptCount (.finite q) = .finite (n : ℚ)) := by
  refine ⟨?_, ?_, ?_, ?_, ?_, ?_⟩
  · cases x <;> simp [clamp01]
  · cases x with
    | finite r =>
      simp only [clamp01]
      exact max_le (by norm_num) (min_le_left 1 r)
    | nan => norm_num [clamp01]
    | posInf => norm_num [clamp01]
    | negInf => norm_num [clamp01]
  · cases x <;> simp [clamp01, JSNum.isFinite]
  · rintro r rfl hr
    simp only [clamp01]
    rw [min_eq_right (by linarith), max_eq_left (by linarith)]
  · rintro r rfl hr
    simp only [clamp01]
    rw [min_eq_left (by linarith), max_eq_right (by norm_num)]
  · refine ⟨max 0 ⌊q⌋, le_max_left 0 _, ?_⟩
    simp [normalizedConceptCount, JSNum.jsFloor, JSNum.jsMax, Int.cast_max]

/-- C4 witness: the amended totality theorem applied at the concrete inputs
NaN, -5, 3/2 and concept count 5/2. -/
theorem C4_amended_witness :
    clamp01 JSNum.nan = 0 ∧ clamp01 (JSNum.finite (-5)) = 0 ∧
    clamp01 (JSNum.finite (3/2)) = 1 ∧
    ∃ n : ℤ, 0 ≤ n ∧ normalizedConceptCount (JSNum.finite (5/2)) = JSNum.finite (n : ℚ) :=
  ⟨(C4_amended_normalization_totality JSNum.nan 0).2.2.1 (by decide),
   (C4_amended_normalization_totality (JSNum.finite (-5)) 0).2.2.2.1 (-5) rfl (by norm_num),
   (C4_amended_normalization_totality (JSNum.finite (3/2)) 0).2.2.2.2.1 (3/2) rfl (by norm_num),
   (C4_amended_normalization_totality JSNum.nan (5/2)).2.2.2.2.2⟩

/-! ### List helper lemmas for the question-plan and bridge-question claims -/

theorem interleave_nil_left (ys : List NormalizedQuestion) : interleave [] ys = ys := by
  simp [interleave]

theorem interleave_cons (x : NormalizedQuestion) (xs ys : List NormalizedQuestion) :
    interleave (x :: xs) ys = x :: interleave ys xs := by
  rw [interleave]

theorem interleave_length (xs ys : List NormalizedQuestion) :
    (interleave xs ys).length = xs.length + ys.length := by
  induction xs, ys using interleave.induct with
  | case1 ys => simp [interleave_nil_left]
  | case2 x xs ys ih => rw [interleave_cons]; simp only [List.length_cons, ih]; omega

theorem interleave_countP (pr : NormalizedQuestion → Bool)
    (xs ys : List NormalizedQuestion) :
    (interleave xs ys).countP pr = xs.countP pr + ys.countP pr := by
  induction xs, ys using interleave.induct with
  | case1 ys => simp [interleave_nil_left]
  | case2 x xs ys ih => rw [interleave_cons]; simp only [List.countP_cons, ih]; omega

theorem orderQuestions_length (o m : List NormalizedQuestion) (ord : QuestionOrdering) :
    (orderQuestions o m ord).length = o.length + m.length := by
  cases ord <;> simp [orderQuestions, interleave_length] <;> omega

theorem orderQuestions_countP (pr : NormalizedQuestion → Bool)
    (o m : List NormalizedQuestion) (ord : QuestionOrdering) :
    (orderQuestions o m ord).countP pr = o.countP pr + m.countP pr := by
  cases ord <;> simp [orderQuestions, List.countP_append, interleave_countP] <;> omega

theorem isOpen_false_of_isMcq (q : NormalizedQuestion) (h : q.isMcq = true) :
    q.isOpen = false := by
  cases q <;> simp_all [NormalizedQuestion.isOpen, NormalizedQuestion.isMcq]

theorem isMcq_false_of_isOpen (q : NormalizedQuestion) (h : q.isOpen = true) :
    q.isMcq = false := by
  cases q <;> simp_all [NormalizedQuestion.isOpen, NormalizedQuestion.isMcq]

theorem buildFallbackOpenQuestions_length (concepts : List String) (needed : ℕ)
    (mode : LearningMode) :
    (buildFallbackOpenQuestions concepts needed mode).length = needed := by
  simp [buildFallbackOpenQuestions]

theorem buildFallbackOpenQuestions_isOpen (concepts : List String) (needed : ℕ)
    (mode : LearningMode) :
    ∀ q ∈ buildFallbackOpenQuestions concepts needed mode, q.isOpen = true := by
  intro q hq
  simp only [buildFallbackOpenQuestions, List.mem_map, List.mem_range] at hq
  obtain ⟨i, -, rfl⟩ := hq
  rfl

theorem buildFallbackMcqQuestions_length (concepts : List String) (needed : ℕ)
    (mode : LearningMode) :
    (buildFallbackMcqQuestions concepts needed mode).length = needed := by
  simp [buildFallbackMcqQuestions]

theorem buildFallbackMcqQuestions_isMcq (concepts : List String) (needed : ℕ)
    (mode : LearningMode) :
    ∀ q ∈ buildFallbackMcqQuestions concepts needed mode, q.isMcq = true := by
  intro q hq
  simp only [buildFallbackMcqQuestions, List.mem_map, List.mem_range] at hq
  obtain ⟨i, -, rfl⟩ := hq
  rfl

theorem plannedOpenQuestions_length (candidates : List NormalizedQuestion)
    (concepts : List String) (plan : QuestionPlan) :
    (plannedOpenQuestions candidates concepts plan).length = plan.openTarget := by
  have hle : ((candidates.filter (·.isOpen)).take plan.openTarget).length ≤ plan.openTarget := by
    simp [List.length_take]
  simp only [plannedOpenQuestions]
  split_ifs with h
  · simp only [List.length_append, buildFallbackOpenQuestions_length]
    omega
  · omega

theorem plannedOpenQuestions_isOpen (candidates : List NormalizedQuestion)
    (concepts : List String) (plan : QuestionPlan) :
    ∀ q ∈ plannedOpenQuestions candidates concepts plan, q.isOpen = true := by
  intro q hq
  simp only [plannedOpenQuestions] at hq
  split_ifs at hq with h
  · rcases List.mem_append.mp hq with h1 | h2
    · exact (List.mem_filter.mp (List.mem_of_mem_take h1)).2
    · exact buildFallbackOpenQuestions_isOpen _ _ _ q h2
  · exact (List.mem_filter.mp (List.mem_of_mem_take hq)).2

theorem plannedMcqQuestions_length (candidates : List NormalizedQuestion)
    (concepts : List String) (plan : QuestionPlan) :
    (plannedMcqQuestions candidates concepts plan).length = plan.mcqTarget := by
  have hle : ((candidates.filter (·.isMcq)).take plan.mcqTarget).length ≤ plan.mcqTarget := by
    simp [List.length_take]
  simp only [plannedMcqQuestions]
  split_ifs with h
  · simp only [List.length_append, buildFallbackMcqQuestions_length]
    omega
  · omega

theorem plannedMcqQuestions_isMcq (candidates : List NormalizedQuestion)
    (concepts : List String) (plan : QuestionPlan) :
    ∀ q ∈ plannedMcqQuestions candidates concepts plan, q.isMcq = true := by
  intro q hq
  simp only [plannedMcqQuestions] at hq
  split_ifs at hq with h
  · rcases List.mem_append.mp hq with h1 | h2
    · exact (List.mem_filter.mp (List.mem_of_mem_take h1)).2
    · exact buildFallbackMcqQuestions_isMcq _ _ _ q h2
  · exact (List.mem_filter.mp (List.mem_of_mem_take hq)).2

theorem enforceQuestionPlan_length (candidates : List NormalizedQuestion)
    (concepts : List String) (plan : QuestionPlan) :
    (enforceQuestionPlan candidates concepts plan).length =
      plan.openTarget + plan.mcqTarget := by
  rw [enforceQuestionPlan, orderQuestions_length, plannedOpenQuestions_length,
    plannedMcqQuestions_length]

theorem enforceQuestionPlan_countP_isOpen (candidates : List NormalizedQuestion)
    (concepts : List String) (plan : QuestionPlan) :
    (enforceQuestionPlan candidates concepts plan).countP (·.isOpen) = plan.openTarget := by
  rw [enforceQuestionPlan, orderQuestions_countP]
  have h1 : (plannedOpenQuestions candidates concepts plan).countP (·.isOpen) =
      (plannedOpenQuestions candidates concepts plan).length :=
    List.countP_eq_length.mpr (plannedOpenQuestions_isOpen candidates concepts plan)
  have h2 : (plannedMcqQuestions candidates concepts plan).countP (·.isOpen) = 0 :=
    List.countP_eq_zero.mpr (fun q hq => by
      simp [isOpen_false_of_isMcq q (plannedMcqQuestions_isMcq candidates concepts plan q hq)])
  rw [h1, h2, plannedOpenQuestions_length]
  omega

theorem enforceQuestionPlan_countP_isMcq (candidates : List NormalizedQuestion)
    (concepts : List String) (plan : QuestionPlan) :
    (enforceQuestionPlan candidates concepts plan).countP (·.isMcq) = plan.mcqTarget := by
  rw [enforceQuestionPlan, orderQuestions_countP]
  have h1 : (plannedMcqQuestions candidates concepts plan).countP (·.isMcq) =
      (plannedMcqQuestions candidates concepts plan).length :=
    List.countP_eq_length.mpr (plannedMcqQuestions_isMcq candidates concepts plan)
  have h2 : (plannedOpenQuestions candidates concepts plan).countP (·.isMcq) = 0 :=
    List.countP_eq_zero.mpr (fun q hq => by
      simp [isMcq_false_of_isOpen q (plannedOpenQuestions_isOpen candidates concepts plan q hq)])
  rw [h1, h2, plannedMcqQuestions_length]
  omega

theorem enforceQuestionPlan_general_learning_shape (candidates : List NormalizedQuestion)
    (concepts : List String) :
    ∃ a b c d,
      enforceQuestionPlan candidates concepts (questionPlanForMode .general_learning) =
        [a, b, c, d] ∧
      a.isOpen = true ∧ b.isMcq = true ∧ c.isOpen = true ∧ d.isMcq = true := by
  have hoLen : (plannedOpenQuestions candidates concepts
      (questionPlanForMode .general_learning)).length = 2 :=
    plannedOpenQuestions_length candidates concepts (questionPlanForMode .general_learning)
  have hmLen : (plannedMcqQuestions candidates concepts
      (questionPlanForMode .general_learning)).length = 2 :=
    plannedMcqQuestions_length candidates concepts (questionPlanForMode .general_learning)
  obtain ⟨a, c, hac⟩ := List.length_eq_two.mp hoLen
  obtain ⟨b, d, hbd⟩ := List.length_eq_two.mp hmLen
  have hopen := plannedOpenQuestions_isOpen candidates concepts
    (questionPlanForMode .general_learning)
  have hmcq := plannedMcqQuestions_isMcq candidates concepts
    (questionPlanForMode .general_learning)
  rw [hac] at hopen
  rw [hbd] at hmcq
  refine ⟨a, b, c, d, ?_, hopen a (by simp), hmcq b (by simp),
    hopen c (by simp), hmcq d (by simp)⟩
  rw [enforceQuestionPlan]
  show orderQuestions _ _ QuestionOrdering.balanced = _
  rw [orderQuestions, hac, hbd, interleave_cons, interleave_cons, interleave_cons,
    interleave_cons, interleave_nil_left]

/-- C5: for every candidate question list (including the empty one) and
every concept list, when the decision is `triggered` the enforced question
list has length exactly `openTarget + mcqTarget` with exactly `openTarget`
open and `mcqTarget` MCQ questions (for `general_learning`: exactly 2 open
and 2 MCQ interleaved one-for-one), and when the decision is `ignored` the
question list is empty. -/
theorem C5_question_plan_invariants (policy : InterventionPolicy)
    (mode : LearningMode) (parsed : ParsedModelOutput) :
    ((analyzeContentCore policy mode parsed).decision = .triggered →
      (analyzeContentCore policy mode parsed).recall_questions.length =
        (questionPlanForMode mode).openTarget + (questionPlanForMode mode).mcqTarget ∧
      (analyzeContentCore policy mode parsed).recall_questions.countP (·.isOpen) =
        (questionPlanForMode mode).openTarget ∧
      (analyzeContentCore policy mode parsed).recall_questions.countP (·.isMcq) =
        (questionPlanForMode mode).mcqTarget ∧
      (mode = .general_learning →
        ∃ a b c d,
          (analyzeContentCore policy mode parsed).recall_questions = [a, b, c, d] ∧
          a.isOpen = true ∧ b.isMcq = true ∧ c.isOpen = true ∧ d.isMcq = true)) ∧
    ((analyzeContentCore policy mode parsed).decision = .ignored →
      (analyzeContentCore policy mode parsed).recall_questions = []) := by
  by_cases hc : clamp01 parsed.relevance_score ≥ TRIGGER_THRESHOLDS policy ∧
      clamp01 parsed.learning_value_score ≥ TRIGGER_THRESHOLDS policy
  · have hrec : (analyzeContentCore policy mode parsed).recall_questions =
        enforceQuestionPlan (parsed.recall_questions.take 8) parsed.concepts
          (questionPlanForMode mode) := by
      simp [analyzeContentCore, hc]
    constructor
    · intro _
      rw [hrec]
      refine ⟨enforceQuestionPlan_length _ _ _, enforceQuestionPlan_countP_isOpen _ _ _,
        enforceQuestionPlan_countP_isMcq _ _ _, ?_⟩
      rintro rfl
      exact enforceQuestionPlan_general_learning_shape _ _
    · intro hig
      exfalso
      simp [analyzeContentCore, hc] at hig
  · constructor
    · intro htr
      exfalso
      simp [analyzeContentCore, hc] at htr
    · intro _
      simp [analyzeContentCore, hc]

/-- C5 witness: the question-plan theorem applied at policy=focused,
mode=general_learning and a parsed output with scores 0.9/0.9 (triggered)
and no candidate questions: the output is a 4-question open/MCQ/open/MCQ
interleave. -/
theorem C5_question_plan_witness :
    ∃ a b c d,
      (analyzeContentCore .focused .general_learning
        ⟨.finite (9/10), .finite (9/10), none, [], []⟩).recall_questions = [a, b, c, d] ∧
      a.isOpen = true ∧ b.isMcq = true ∧ c.isOpen = true ∧ d.isMcq = true :=
  ((C5_question_plan_invariants .focused .general_learning
      ⟨.finite (9/10), .finite (9/10), none, [], []⟩).1
    (by norm_num [analyzeContentCore, clamp01, TRIGGER_THRESHOLDS])).2.2.2 rfl

/-- C10: `applyBridgeQuestion` on a non-empty list returns a list of the
same length in which exactly one element — the first open question if one
exists, otherwise the first element — is replaced by the bridge question,
every other element being unchanged at its original position; on the empty
list it returns the one-element list holding only the bridge question. -/
theorem C10_apply_bridge_frame (qs : List NormalizedQuestion)
    (bridge : NormalizedQuestion) :
    applyBridgeQuestion [] bridge = [bridge] ∧
    (qs ≠ [] → ∃ i : ℕ, i < qs.length ∧
      applyBridgeQuestion qs bridge = qs.set i bridge ∧
      (applyBridgeQuestion qs bridge).length = qs.length ∧
      (applyBridgeQuestion qs bridge)[i]? = some bridge ∧
      (∀ j : ℕ, j ≠ i → (applyBridgeQuestion qs bridge)[j]? = qs[j]?) ∧
      ((∃ q ∈ qs, q.isOpen = true) →
        ∃ q, qs[i]? = some q ∧ q.isOpen = true ∧
          ∀ r ∈ qs.take i, r.isOpen = false) ∧
      ((∀ q ∈ qs, q.isOpen = false) → i = 0)) := by
  constructor
  · rfl
  · intro hne
    cases hf : qs.findIdx? (·.isOpen) with
    | some k =>
      have hset : applyBridgeQuestion qs bridge = qs.set k bridge := by
        simp [applyBridgeQuestion, hf]
      obtain ⟨hk, hopenk, hbefore⟩ := List.findIdx?_eq_some_iff_getElem.mp hf
      refine ⟨k, hk, hset, ?_, ?_, ?_, ?_, ?_⟩
      · rw [hset, List.length_set]
      · rw [hset]
        exact List.getElem?_set_self hk
      · intro j hj
        rw [hset]
        exact List.getElem?_set_ne (Ne.symm hj)
      · intro _
        refine ⟨_, List.getElem?_eq_getElem hk, hopenk, ?_⟩
        intro r hr
        obtain ⟨n, hn⟩ := List.mem_iff_getElem?.mp hr
        have hnlt : n < (qs.take k).length := (List.getElem?_eq_some_iff.mp hn).1
        have hnk : n < k := by
          simp only [List.length_take] at hnlt
          omega
        have hq : qs[n]? = some r := by
          rw [← List.getElem?_take_of_lt hnk]
          exact hn
        obtain ⟨hlt2, hval⟩ := List.getElem?_eq_some_iff.mp hq
        have hfalse := hbefore n hnk
        rw [hval] at hfalse
        simpa using hfalse
      · intro hall
        exfalso
        have hmem : qs.get ⟨k, hk⟩ ∈ qs := List.get_mem qs k hk
        have := hall _ hmem
        simp only [List.get_eq_getElem] at this
        rw [this] at hopenk
        cases hopenk
    | none =>
      have hall : ∀ q ∈ qs, q.isOpen = false := by
        intro q hq
        simpa using List.findIdx?_eq_none_iff.mp hf q hq
      obtain ⟨x, xs, rfl⟩ := List.exists_cons_of_ne_nil hne
      have hset : applyBridgeQuestion (x :: xs) bridge = (x :: xs).set 0 bridge := by
        simp [applyBridgeQuestion, hf]
      refine ⟨0, by simp, hset, ?_, ?_, ?_, ?_, fun _ => rfl⟩
      · rw [hset, List.length_set]
      · rw [hset]
        exact List.getElem?_set_self (by simp)
      · intro j hj
        rw [hset]
        exact List.getElem?_set_ne (Ne.symm hj)
      · intro hex
        exfalso
        obtain ⟨q, hq, hqo⟩ := hex
        rw [hall q hq] at hqo
        cases hqo

/-- C10 witness: the frame theorem applied to the concrete two-element list
[MCQ, open] with a bridge question: the replacement happens at a valid
index and the result is a `set` of the original list. -/
theorem C10_apply_bridge_witness :
    ∃ i : ℕ,
      i < ([NormalizedQuestion.mcq "Which option is right about X?"
              ["a1", "b1", "c1", "d1"] 0,
            NormalizedQuestion.open "Explain X in your own words."] :
          List NormalizedQuestion).length ∧
      applyBridgeQuestion
          [NormalizedQuestion.mcq "Which option is right about X?"
              ["a1", "b1", "c1", "d1"] 0,
            NormalizedQuestion.open "Explain X in your own words."]
          (NormalizedQuestion.open "How does X relate to your earlier item?") =
        ([NormalizedQuestion.mcq "Which option is right about X?"
              ["a1", "b1", "c1", "d1"] 0,
            NormalizedQuestion.open "Explain X in your own words."].set i
          (NormalizedQuestion.open "How does X relate to your earlier item?")) := by
  obtain ⟨i, hi, hset, -⟩ :=
    (C10_apply_bridge_frame
      [NormalizedQuestion.mcq "Which option is right about X?"
          ["a1", "b1", "c1", "d1"] 0,
        NormalizedQuestion.open "Explain X in your own words."]
      (NormalizedQuestion.open "How does X relate to your earlier item?")).2 (by simp)
  exact ⟨i, hi, hset⟩

end Signal
